import Mathlib

/-!
Shallow embedding of the logbase storage engine (Go), for checking the
natural-language specification against the source.

Modelling conventions:
* A Go byte is a `Nat` (values 0..255 in real data); Go `string` and `[]byte`
  keys/values are `List Nat` in byte order.
* The Go `map[string][]byte` is an association list with at most one binding
  per key, maintained by the insert operation; lookup, insert and erase mirror
  the map operations used by the source.
* File contents are `List Nat`; file-system operations (create, write, flush,
  remove) are modelled as always succeeding.  The residual error sources are
  the decoding loops, which the source itself treats as fallible, and the gob
  encoder behind `BloomFilter.Save`, whose deterministic failure on this
  struct is modelled faithfully (see `gobEncodeBloomFilter`) and propagates
  through `WriteSSTable` into the flush pipeline exactly as in the source.
* Loops that consume a byte stream are written with an explicit fuel argument
  (always called with more fuel than the stream length) so that every
  definition is executable by kernel reduction.
-/

namespace Logbase

set_option maxRecDepth 100000

/-- Big-endian encoding of a Go `uint32` written with `binary.Write`; the
`% 256` projections model the truncating `uint32(·)` conversion. -/
def encodeU32 (n : Nat) : List Nat :=
  [n / 2 ^ 24 % 256, n / 2 ^ 16 % 256, n / 2 ^ 8 % 256, n % 256]

/-- Big-endian decoding of 4 bytes (`binary.Read` into a `uint32`); `none`
models a short read (`io.ErrUnexpectedEOF` or `io.EOF`). -/
def readU32 (l : List Nat) : Option (Nat × List Nat) :=
  match l with
  | b0 :: b1 :: b2 :: b3 :: rest => some (((b0 * 256 + b1) * 256 + b2) * 256 + b3, rest)
  | _ => none

/-- Reading exactly `n` bytes (`io.ReadFull`); `none` models a short read. -/
def takeExact (n : Nat) (l : List Nat) : Option (List Nat × List Nat) :=
  if n ≤ l.length then some (l.take n, l.drop n) else none

/-- Reading a single byte (`binary.Read` into a one-byte value). -/
def takeByte (l : List Nat) : Option (Nat × List Nat) :=
  match l with
  | b :: rest => some (b, rest)
  | _ => none

/- ## Membership filter (bloom.go) -/

/-- Go struct `BloomFilter { bits []byte; k int }`. -/
structure BloomFilter where
  bits : List Nat
  k : Nat
deriving DecidableEq, Repr

/-- `NewBloomFilter(size, k)`: `make([]byte, size)` is a zero-filled byte
slice. -/
def NewBloomFilter (size : Nat) (k : Nat) : BloomFilter :=
  { bits := List.replicate size 0, k := k }

/-- FNV-1a 64-bit offset basis (`hash/fnv.New64a`). -/
def fnvOffset : Nat := 14695981039346656037

/-- FNV-1a 64-bit prime. -/
def fnvPrime : Nat := 1099511628211

/-- FNV-1a 64-bit digest of a byte sequence: starting from the offset basis,
each byte is XORed in and the state is multiplied by the prime modulo 2^64. -/
def fnv64a (bytes : List Nat) : Nat :=
  bytes.foldl (fun h b => ((h ^^^ b) * fnvPrime) % 2 ^ 64) fnvOffset

/-- `(b *BloomFilter) hash(key, seed)`: the FNV-1a digest of the single byte
`byte(seed)` followed by the key bytes.  (The receiver is unused in the
source.) -/
def BloomFilter.hash (key : List Nat) (seed : Nat) : Nat :=
  fnv64a ((seed % 256) :: key)

/-- `b.bits[byteIdx] |= 1 << bitIdx` for `byteIdx = idx / 8`,
`bitIdx = idx % 8`. -/
def setBit (bits : List Nat) (idx : Nat) : List Nat :=
  bits.set (idx / 8) ((bits.getD (idx / 8) 0) ||| (1 <<< (idx % 8)))

/-- `(b.bits[byteIdx] & (1 << bitIdx)) != 0` for `byteIdx = idx / 8`,
`bitIdx = idx % 8`. -/
def testBit (bits : List Nat) (idx : Nat) : Bool :=
  ((bits.getD (idx / 8) 0) &&& (1 <<< (idx % 8))) != 0

/-- The body of the `Add` loop: set the bit at
`idx = hash(key, i) % (uint64(len(bits)) * 8)`. -/
def addStep (key : List Nat) (bs : List Nat) (i : Nat) : List Nat :=
  setBit bs (BloomFilter.hash key i % (bs.length * 8))

/-- `BloomFilter.Add`: for each `i < k`, set the bit at
`hash(key, i) % (len(bits) * 8)`. -/
def BloomFilter.add (b : BloomFilter) (key : List Nat) : BloomFilter :=
  { b with bits := (List.range b.k).foldl (addStep key) b.bits }

/-- `BloomFilter.MightContain`: `false` as soon as one probed bit is unset,
else `true`. -/
def BloomFilter.mightContain (b : BloomFilter) (key : List Nat) : Bool :=
  (List.range b.k).all
    (fun i => testBit b.bits (BloomFilter.hash key i % (b.bits.length * 8)))

/- ### The gob serialization behind `BloomFilter.Save` -/

/-- Whether a Go identifier is exported: its first letter is upper case. -/
def goExported (name : String) : Bool :=
  (name.toList.headD 'a').isUpper

/-- The field names of the Go struct `BloomFilter`, in declaration order:
`bits []byte` and `k int`. -/
def bloomFilterFieldNames : List String := ["bits", "k"]

/-- Modelled from the documented behaviour of Go `encoding/gob`, which
`BloomFilter.Save` delegates to: a struct value encodes only its exported
fields, and encoding a struct type with no exported fields fails with
`gob: type ... has no exported fields`.  When at least one field is exported
the payload here keeps the exported data (which fields those are is what the
claims depend on, not the wire format). -/
def gobEncodeBloomFilter (b : BloomFilter) : Except String (List Nat) :=
  if bloomFilterFieldNames.any goExported then
    .ok (encodeU32 b.bits.length ++ b.bits ++ encodeU32 b.k)
  else
    .error "gob: type BloomFilter has no exported fields"

/-- `BloomFilter.Save(path)`: create the file and gob-encode the filter into
it.  File creation is modelled as succeeding, so the result is the encoder's
result; on an encoder error the created sidecar file is left behind empty,
since `Save` removes nothing. -/
def BloomFilter.save (b : BloomFilter) : Except String (List Nat) :=
  gobEncodeBloomFilter b

/- ## Memory table (memtable.go) -/

/-- Lookup in a Go `map[string][]byte` modelled as an association list. -/
def mapGet (m : List (List Nat × List Nat)) (key : List Nat) : Option (List Nat) :=
  match m.find? (fun p => p.1 == key) with
  | some p => some p.2
  | none => none

/-- Go map assignment `m[k] = v`: replace the existing binding in place, or
append a new one. -/
def mapInsert (m : List (List Nat × List Nat)) (key value : List Nat) :
    List (List Nat × List Nat) :=
  if (m.find? (fun p => p.1 == key)).isSome then
    m.map (fun p => if p.1 == key then (p.1, value) else p)
  else
    m ++ [(key, value)]

/-- Go `delete(m, k)`. -/
def mapErase (m : List (List Nat × List Nat)) (key : List Nat) :
    List (List Nat × List Nat) :=
  m.filter (fun p => p.1 != key)

/-- Go struct `MemTable { data map[string][]byte; bytes int }` (the mutex is
irrelevant to the single-threaded semantics modelled here). -/
structure MemTable where
  data : List (List Nat × List Nat)
  bytes : Int
deriving DecidableEq, Repr

/-- `NewMemTable()`. -/
def NewMemTable : MemTable :=
  { data := [], bytes := 0 }

/-- `MemTable.Put`: if the key is present subtract the old value length, then
assign and add `len(k) + len(value)`. -/
def MemTable.put (m : MemTable) (key value : List Nat) : MemTable :=
  let bytes1 :=
    match mapGet m.data key with
    | some old => m.bytes - old.length
    | none => m.bytes
  { data := mapInsert m.data key value,
    bytes := bytes1 + key.length + value.length }

/-- `MemTable.Get`. -/
def MemTable.get (m : MemTable) (key : List Nat) : Option (List Nat) :=
  mapGet m.data key

/-- `MemTable.Delete`: if the key is present, subtract the old value length
and remove the key from the map (the source stores no tombstone). -/
def MemTable.delete (m : MemTable) (key : List Nat) : MemTable :=
  match mapGet m.data key with
  | some old => { data := mapErase m.data key, bytes := m.bytes - old.length }
  | none => m

/-- `MemTable.Size`. -/
def MemTable.size (m : MemTable) : Int :=
  m.bytes

/-- `MemTable.Snapshot`: a copy of the map. -/
def MemTable.snapshot (m : MemTable) : List (List Nat × List Nat) :=
  m.data

/-- Go string comparison `<` (lexicographic on bytes). -/
def strLt : List Nat → List Nat → Bool
  | [], [] => false
  | [], _ :: _ => true
  | _ :: _, [] => false
  | a :: as, b :: bs => if a < b then true else if b < a then false else strLt as bs

/-- `MemTable.Range`: all entries with `start ≤ k ≤ end`. -/
def MemTable.range (m : MemTable) (s e : List Nat) : List (List Nat × List Nat) :=
  m.data.filter (fun p => !(strLt p.1 s) && !(strLt e p.1))

/-- Σ (len(key) + len(value)) over the entries present in the memory table;
the quantity the specification says `Size()` reports. -/
def memSum (m : MemTable) : Int :=
  m.data.foldl (fun acc p => acc + p.1.length + p.2.length) 0

/- ## Sorted table files (sstable.go) -/

/-- Decode one SST record `[u32 key_len][key][u32 value_len][value]` from the
front of a byte stream, returning the record and the remaining bytes; `none`
models a read or decoding failure mid-record. -/
def readRecord (l : List Nat) : Option ((List Nat × List Nat) × List Nat) :=
  match readU32 l with
  | none => none
  | some (keyLen, r1) =>
    match takeExact keyLen r1 with
    | none => none
    | some (k, r2) =>
      match readU32 r2 with
      | none => none
      | some (valLen, r3) =>
        match takeExact valLen r3 with
        | none => none
        | some (v, r4) => some ((k, v), r4)

/-- Result of `SSTable.Get`, which returns `([]byte, bool, error)`. -/
inductive SSTRes where
  | found (v : List Nat)
  | notFound
  | ioErr
deriving DecidableEq, Repr

/-- The scan loop of `SSTable.Get`: clean EOF before a record ends the scan
(`notFound`); a failure mid-record is an error; a matching key returns its
value.  `fuel` only bounds the iteration count and is always supplied larger
than the stream length. -/
def sstGetLoop : Nat → List Nat → List Nat → SSTRes
  | 0, _, _ => .ioErr
  | _ + 1, [], _ => .notFound
  | fuel + 1, l, target =>
    match readRecord l with
    | none => .ioErr
    | some ((k, v), rest) =>
      if k == target then .found v else sstGetLoop fuel rest target

/-- `SSTable.Get` over the table's file contents (the source re-opens the
file by path on every call; the file bytes stand for its on-disk content). -/
def sstGet (file target : List Nat) : SSTRes :=
  sstGetLoop (file.length + 1) file target

/-- The scan loop of `SSTable.Range`: records with key below `start` are
skipped, a key above `end` stops the scan, in-range records are accumulated
into the result map in file order; `none` models a read failure. -/
def sstRangeLoop : Nat → List Nat → List Nat → List Nat →
    List (List Nat × List Nat) → Option (List (List Nat × List Nat))
  | 0, _, _, _, _ => none
  | _ + 1, [], _, _, acc => some acc
  | fuel + 1, l, s, e, acc =>
    match readRecord l with
    | none => none
    | some ((k, v), rest) =>
      if strLt k s then sstRangeLoop fuel rest s e acc
      else if strLt e k then some acc
      else sstRangeLoop fuel rest s e (mapInsert acc k v)

/-- `SSTable.Range` over the table's file contents. -/
def sstRange (file s e : List Nat) : Option (List (List Nat × List Nat)) :=
  sstRangeLoop (file.length + 1) file s e []

/-- Go struct `SSTable { Path string; Index []IndexEntry; Bloom *BloomFilter }`.
The file contents stand for the on-disk data file; the sparse index is omitted
because the v1 `Get`/`Range` scans never consult it. -/
structure SSTable where
  path : String
  file : List Nat
  bloom : Option BloomFilter
deriving DecidableEq, Repr

/-- Insertion into an ascending list of keys, for `sort.Strings`. -/
def insertSortedKey (k : List Nat) : List (List Nat) → List (List Nat)
  | [] => [k]
  | x :: xs => if strLt x k then x :: insertSortedKey k xs else k :: x :: xs

/-- `sort.Strings` on the key list (ascending byte-lexicographic order). -/
def sortStrings (l : List (List Nat)) : List (List Nat) :=
  l.foldr insertSortedKey []

/-- One framed SST record. -/
def sstRecordBytes (k v : List Nat) : List Nat :=
  encodeU32 k.length ++ k ++ encodeU32 v.length ++ v

/-- The data-file bytes `WriteSSTable` streams and flushes before attempting
the sidecar save: the framed records in ascending key order. -/
def sstDataBytes (data : List (List Nat × List Nat)) : List Nat :=
  (sortStrings (data.map Prod.fst)).foldl
    (fun acc k => acc ++ sstRecordBytes k ((mapGet data k).getD [])) []

/-- The filter `WriteSSTable` populates while streaming: every key of the
snapshot fed through a fresh `NewBloomFilter(1024, 3)` in ascending order. -/
def sstBuildBloom (data : List (List Nat × List Nat)) : BloomFilter :=
  (sortStrings (data.map Prod.fst)).foldl
    (fun b k => b.add k) (NewBloomFilter 1024 3)

/-- `WriteSSTable(path, data)`: sort the keys ascending, feed each through
the filter, append the framed records and flush them, then `bf.Save` the
sidecar filter.  On a save error the source returns `(nil, err)` — modelled
as `none` — without removing the already-streamed data file or the empty
sidecar file `Save` created; given `gobEncodeBloomFilter`, the save error
branch is the one this program always takes. -/
def writeSSTable (path : String) (data : List (List Nat × List Nat)) :
    Option SSTable :=
  let bf := sstBuildBloom data
  let file := sstDataBytes data
  match bf.save with
  | .error _ => none
  | .ok _ => some { path := path, file := file, bloom := some bf }

/- ## Write-ahead log (wal.go) -/

/-- One decoded WAL record (`WALRecord`); `typeByte` is 1 for PUT and 2 for
DELETE. -/
structure WALRecord where
  typeByte : Nat
  key : List Nat
  value : List Nat
deriving DecidableEq, Repr

/-- The framed bytes of one WAL record:
`[u8 type][u32 key_len][key][u32 value_len][value]`. -/
def walRecordBytes (t : Nat) (key value : List Nat) : List Nat :=
  t % 256 :: (encodeU32 key.length ++ key ++ encodeU32 value.length ++ value)

/-- Decode one WAL record from the front of a byte stream. -/
def readWALRecord (l : List Nat) : Option (WALRecord × List Nat) :=
  match takeByte l with
  | none => none
  | some (t, r0) =>
    match readRecord r0 with
    | none => none
    | some ((k, v), rest) => some ({ typeByte := t, key := k, value := v }, rest)

/-- The decode loop of `WAL.Replay`: clean EOF before a type byte ends the
replay; any mid-record failure aborts it with an error (`none`). -/
def walReplayLoop : Nat → List Nat → Option (List WALRecord)
  | 0, _ => none
  | _ + 1, [] => some []
  | fuel + 1, l =>
    match readWALRecord l with
    | none => none
    | some (r, rest) => (walReplayLoop fuel rest).map (fun rs => r :: rs)

/-- `WAL.Replay` over the active segment's bytes. -/
def walReplayBytes (l : List Nat) : Option (List WALRecord) :=
  walReplayLoop (l.length + 1) l

/-- The WAL: the directory contents (segment id ↦ file bytes, ids as parsed
back by `extractID` from the `wal_NNNNNN.log` names) and the active segment
id. -/
structure WAL where
  files : List (Nat × List Nat)
  segment : Nat
deriving DecidableEq, Repr

/-- `openSegment(id)`: `O_CREATE|O_RDWR|O_APPEND` keeps an existing file and
creates a missing one; the segment id becomes active. -/
def WAL.openSegment (w : WAL) (id : Nat) : WAL :=
  { files := if (w.files.map Prod.fst).contains id then w.files
             else w.files ++ [(id, [])],
    segment := id }

/-- `nextSegmentID()`: 0 when the directory has no `wal_*.log` file, else one
past the maximum id found. -/
def nextSegmentID (files : List (Nat × List Nat)) : Nat :=
  if files.isEmpty then 0 else (files.map Prod.fst).foldl max 0 + 1

/-- `OpenWAL(dir)` over the directory's current segment files. -/
def openWAL (files : List (Nat × List Nat)) : WAL :=
  WAL.openSegment { files := files, segment := 0 } (nextSegmentID files)

/-- Append framed bytes to the active segment and flush them (the
buffered-writer flush is modelled by the bytes reaching the file). -/
def WAL.appendBytes (w : WAL) (bs : List Nat) : WAL :=
  { w with
    files := w.files.map (fun p => if p.1 == w.segment then (p.1, p.2 ++ bs) else p) }

/-- `WAL.AppendPut`. -/
def WAL.appendPut (w : WAL) (key value : List Nat) : WAL :=
  w.appendBytes (walRecordBytes 1 key value)

/-- `WAL.AppendDelete` (a DELETE record carries an empty value). -/
def WAL.appendDelete (w : WAL) (key : List Nat) : WAL :=
  w.appendBytes (walRecordBytes 2 key [])

/-- `WAL.Rotate`: flush and close the active segment, open the next id. -/
def WAL.rotate (w : WAL) : WAL :=
  w.openSegment (w.segment + 1)

/-- `WAL.Truncate(before)`: remove every segment file with id < `before`. -/
def WAL.truncate (w : WAL) (before : Nat) : WAL :=
  { w with files := w.files.filter (fun p => !(decide (p.1 < before))) }

/-- The bytes of the active segment file. -/
def WAL.activeBytes (w : WAL) : List Nat :=
  ((w.files.find? (fun p => p.1 == w.segment)).map Prod.snd).getD []

/-- `WAL.Replay` reads the active segment from its start. -/
def WAL.replay (w : WAL) : Option (List WALRecord) :=
  walReplayBytes w.activeBytes

/- ## Engine (engine.go) -/

/-- The compile-time constant `const MaxSSTables = 4` that `maybeCompact`
compares against. -/
def MaxSSTables : Nat := 4

/-- The engine.  `memTableFlushThreshold` and `maxSSTables` embed the
package-level variables `MemTableFlushThreshold` and `maxSSTables` that
`NewEngineWithConfig` wires from the configuration. -/
structure Engine where
  wal : WAL
  memtable : MemTable
  sstables : List SSTable
  nextTable : Nat
  memTableFlushThreshold : Int
  maxSSTables : Nat
deriving DecidableEq, Repr

/-- Zero-padded decimal of width 6 (`%06d`). -/
def pad6 (n : Nat) : String :=
  let s := toString n
  String.mk (List.replicate (6 - s.length) '0') ++ s

/-- The data file path of a flushed SST (`sst_%06d.dat`). -/
def sstFileName (n : Nat) : String :=
  "sst_" ++ pad6 n ++ ".dat"

/-- The data file path of a compacted SST (`sst_compacted_%06d.dat`). -/
def compactedFileName (n : Nat) : String :=
  "sst_compacted_" ++ pad6 n ++ ".dat"

/-- The merge loop of `compactAll` over the SST list in newest-to-oldest
order: each table's full range (`Range("", "\xff")`) is collected and its
entries are inserted only where no newer entry exists; a range error aborts
the compaction (`none`). -/
def compactMerge : List SSTable → List (List Nat × List Nat) →
    Option (List (List Nat × List Nat))
  | [], acc => some acc
  | t :: rest, acc =>
    match sstRange t.file [] [255] with
    | none => none
    | some data =>
      compactMerge rest
        (data.foldl
          (fun acc2 p => if (mapGet acc2 p.1).isSome then acc2 else mapInsert acc2 p.1 p.2)
          acc)

/-- `Engine.compactAll`: merge newest-to-oldest, strip empty values, write a
single compacted SST, drop the old tables.  The `Bool` is the error flag of
the Go return value; on a range error or a `WriteSSTable` error the engine
fields are untouched and the error is returned, as in the source (and the
`WriteSSTable` error always occurs, so the replacement branch is dead
code in this program). -/
def Engine.compactAll (e : Engine) : Engine × Bool :=
  match compactMerge e.sstables.reverse [] with
  | none => (e, true)
  | some merged =>
    let merged2 := merged.filter (fun p => p.2.length != 0)
    match writeSSTable (compactedFileName e.nextTable) merged2 with
    | none => (e, true)
    | some table =>
      ({ e with sstables := [table], nextTable := e.nextTable + 1 }, false)

/-- `Engine.maybeCompact`: compaction runs iff the SST count has reached the
constant `MaxSSTables` (the configured `maxSSTables` variable is never
consulted here, exactly as in the source). -/
def Engine.maybeCompact (e : Engine) : Engine × Bool :=
  if e.sstables.length < MaxSSTables then (e, false) else e.compactAll

/-- `Engine.flushMemTable`: snapshot (no-op when empty), then `WriteSSTable`;
on its error — which `gobEncodeBloomFilter` makes unavoidable — the error is
returned at once, so registering the table, resetting the memory table,
rotating the WAL, truncating below `segment - 1` and the compaction check
are all unreachable in this program, exactly as in the source. -/
def Engine.flushMemTable (e : Engine) : Engine × Bool :=
  if e.memtable.snapshot.isEmpty then (e, false)
  else
    match writeSSTable (sstFileName e.nextTable) e.memtable.snapshot with
    | none => (e, true)
    | some table =>
      let e1 := { e with
        sstables := e.sstables ++ [table],
        nextTable := e.nextTable + 1,
        memtable := NewMemTable }
      let e2 := { e1 with wal := e1.wal.rotate }
      let e3 := { e2 with wal := e2.wal.truncate (e2.wal.segment - 1) }
      e3.maybeCompact

/-- `Engine.Put`: append to the WAL, apply to the memory table, flush when
`Size() >= MemTableFlushThreshold`.  There is no key validation.  The `Bool`
is the error flag (file writes are modelled as succeeding). -/
def Engine.put (e : Engine) (key value : List Nat) : Engine × Bool :=
  let e1 := { e with wal := e.wal.appendPut key value }
  let e2 := { e1 with memtable := e1.memtable.put key value }
  if e2.memTableFlushThreshold ≤ e2.memtable.size then e2.flushMemTable
  else (e2, false)

/-- `Engine.Delete`: append a DELETE to the WAL, apply `MemTable.Delete`,
flush when over threshold.  There is no key validation. -/
def Engine.delete (e : Engine) (key : List Nat) : Engine × Bool :=
  let e1 := { e with wal := e.wal.appendDelete key }
  let e2 := { e1 with memtable := e1.memtable.delete key }
  if e2.memTableFlushThreshold ≤ e2.memtable.size then e2.flushMemTable
  else (e2, false)

/-- The bloom skip test of `Engine.Get`:
`table.Bloom != nil && !table.Bloom.MightContain(key)`. -/
def bloomRejects : Option BloomFilter → List Nat → Bool
  | some b, key => !(b.mightContain key)
  | none, _ => false

/-- The SST half of `Engine.Get`, over the tables in newest-to-oldest order:
skip a table whose filter rejects the key; otherwise take the first lookup
that reports `ok` (its value is returned even when empty); a lookup error is
discarded (`_` in the source) and the scan continues with older tables. -/
def sstSearch : List SSTable → List Nat → Option (List Nat)
  | [], _ => none
  | t :: older, key =>
    if bloomRejects t.bloom key then sstSearch older key
    else
      match sstGet t.file key with
      | .found v => some v
      | _ => sstSearch older key

/-- `Engine.Get`: any memory-table hit is returned as-is (even an empty
value); otherwise the SSTs are searched newest to oldest. -/
def Engine.get (e : Engine) (key : List Nat) : Option (List Nat) :=
  match e.memtable.get key with
  | some v => some v
  | none => sstSearch e.sstables.reverse key

/-- An SST data file found on disk at startup with its sidecar filter (the
filter that `LoadBloomFilter` produced for it). -/
structure SSTFile where
  path : String
  data : List Nat
  bloom : Option BloomFilter
deriving DecidableEq, Repr

/-- The data directory contents an engine is opened over: WAL segment files
and SST files, the latter listed in the lexical path order that
`filepath.Glob` + `sort.Strings` produce. -/
structure DiskState where
  walFiles : List (Nat × List Nat)
  sstFiles : List SSTFile
deriving DecidableEq, Repr

/-- `loadSSTables`: one `SSTable` per `sst_*.dat` file, in order. -/
def loadSSTables (files : List SSTFile) : List SSTable :=
  files.map (fun f => { path := f.path, file := f.data, bloom := f.bloom })

/-- `NewEngine` (with the package variables already wired by
`NewEngineWithConfig`): open the WAL — which selects `max(id)+1` as the new
active segment — load the SSTs, then replay the WAL's *active* segment into a
fresh memory table (PUT records call `Put`, others call `Delete`); a replay
error fails construction. -/
def newEngine (flushThreshold : Int) (maxTables : Nat) (disk : DiskState) :
    Option Engine :=
  let wal := openWAL disk.walFiles
  let sstables := loadSSTables disk.sstFiles
  match wal.replay with
  | none => none
  | some records =>
    let memtable := records.foldl
      (fun m r => if r.typeByte == 1 then m.put r.key r.value else m.delete r.key)
      NewMemTable
    some { wal := wal, memtable := memtable, sstables := sstables,
           nextTable := sstables.length,
           memTableFlushThreshold := flushThreshold, maxSSTables := maxTables }

/- ## Concrete scenarios used by individual claims -/

/-- What a failed `WriteSSTable(path, data)` leaves on disk: the fully
streamed and flushed data file (the save-error path removes nothing), and
the empty sidecar `.bloom` file that `Save`'s `os.Create` made before the
gob encode failed.  At the next startup `LoadBloomFilter` on that empty
sidecar returns the zero-value filter (`bits = nil`, `k = 0`) together with
a decode error that `loadSSTables` discards, so the loaded table carries a
non-nil filter whose `MightContain` is vacuously `true`. -/
def orphanSSTFile (path : String) (data : List (List Nat × List Nat)) : SSTFile :=
  { path := path, data := sstDataBytes data, bloom := some { bits := [], k := 0 } }

/-- The data directory after a run with a 1-byte flush threshold executed
`Put("k","v")`: the PUT record sits in WAL segment 0, and the put-triggered
flush streamed `sst_000000.dat` before failing at the sidecar save, so the
orphaned data file holding `"k" ↦ "v"` is on disk.  The engine is then
reopened over this directory. -/
def diskC1 : DiskState :=
  ⟨[(0, walRecordBytes 1 [107] [118])],
   [orphanSSTFile "sst_000000.dat" [([107], [118])]]⟩

/-- The engine reopened over `diskC1` — which registers the orphaned data
file as an SST holding `"k" ↦ "v"` — after a subsequent acknowledged
`Delete("k")` (1 MiB threshold, so nothing else flushes). -/
def engC1 : Option Engine :=
  (newEngine 1048576 4 diskC1).map (fun e => (e.delete [107]).1)

/-- A data directory holding one WAL segment (id 0) that records an
acknowledged `Put("a","1")`, as left behind by a crash before `Close`. -/
def diskC2 : DiskState := ⟨[(0, walRecordBytes 1 [97] [49])], []⟩

/-- A fresh engine (1 MiB threshold) after `Put("k", "")`: the memory table
holds an empty value under "k". -/
def engC3 : Option Engine :=
  (newEngine 1048576 4 ⟨[], []⟩).map (fun e => (e.put [107] []).1)

/-- `Put("a","x")` then `Put("a","y")` on a fresh memory table. -/
def mtOverwrite : MemTable := (NewMemTable.put [97] [120]).put [97] [121]

/-- `Put("a","x")` then `Delete("a")` on a fresh memory table. -/
def mtDeleted : MemTable := (NewMemTable.put [97] [120]).delete [97]

/-- An SST holding the single entry `"a" ↦ "1"`, as loaded at startup from
an orphaned data file (zero-value filter from the empty sidecar). -/
def sstC7a : SSTable :=
  { path := "sst_000000.dat", file := sstRecordBytes [97] [49],
    bloom := some { bits := [], k := 0 } }

/-- An SST holding the single entry `"b" ↦ "2"`, loaded the same way. -/
def sstC7b : SSTable :=
  { path := "sst_000001.dat", file := sstRecordBytes [98] [50],
    bloom := some { bits := [], k := 0 } }

/-- An engine whose configured compaction trigger (`maxSSTables`) is 2 and
which already holds 2 SSTs. -/
def engC7 : Engine :=
  { wal := openWAL [], memtable := NewMemTable, sstables := [sstC7a, sstC7b],
    nextTable := 2, memTableFlushThreshold := 1048576, maxSSTables := 2 }

/-- A data directory holding one prior WAL segment (id 0), as left behind by
an earlier run; reopening selects segment 1 as active. -/
def diskC8 : DiskState := ⟨[(0, walRecordBytes 1 [97] [49])], []⟩

/-- The engine reopened over `diskC8` with a 1-byte flush threshold, after a
`Put("k","v")` that drives `Size()` past the threshold and so invokes the
flush pipeline. -/
def engC8 : Option (Engine × Bool) :=
  (newEngine 1 4 diskC8).map (fun e => e.put [107] [118])

/-- A fresh engine (1 MiB threshold) after `Put` of the empty key. -/
def engC9 : Option (Engine × Bool) :=
  (newEngine 1048576 4 ⟨[], []⟩).map (fun e => e.put [] [118])

/-- A fresh empty engine with a 1 MiB flush threshold. -/
def engW9 : Engine :=
  { wal := openWAL [], memtable := NewMemTable, sstables := [], nextTable := 0,
    memTableFlushThreshold := 1048576, maxSSTables := 4 }

/-- An old, well-formed SST holding `"k" ↦ "v"` (no sidecar filter). -/
def sstOldW : SSTable :=
  { path := "sst_000000.dat", file := sstRecordBytes [107] [118], bloom := none }

/-- A newer SST whose data file is corrupt: a single byte, so every point
lookup fails mid-record. -/
def sstBadW : SSTable := { path := "sst_000001.dat", file := [7], bloom := none }

/-- An engine holding the well-formed old SST and the corrupt newer SST. -/
def engW10 : Engine :=
  { wal := openWAL [], memtable := NewMemTable, sstables := [sstOldW, sstBadW],
    nextTable := 2, memTableFlushThreshold := 1048576, maxSSTables := 4 }

/- ## Bit-level lemmas for the membership filter -/

theorem getD_set_self (l : List Nat) (i x : Nat) (h : i < l.length) :
    (l.set i x).getD i 0 = x := by
  rw [List.getD_eq_getElem _ _ (by simpa using h)]
  simp

theorem getD_set_ne (l : List Nat) (i j x : Nat) (h : i ≠ j) :
    (l.set i x).getD j 0 = l.getD j 0 := by
  simp [List.getD, List.getElem?_set_ne h]

theorem getD_out (l : List Nat) (i : Nat) (h : l.length ≤ i) : l.getD i 0 = 0 := by
  simp [List.getD, List.getElem?_eq_none h]

theorem length_setBit (bs : List Nat) (idx : Nat) : (setBit bs idx).length = bs.length := by
  simp [setBit]

theorem testBit_eq (bs : List Nat) (idx : Nat) :
    testBit bs idx = (bs.getD (idx / 8) 0).testBit (idx % 8) := by
  unfold testBit
  rw [Nat.one_shiftLeft, Nat.and_two_pow]
  cases h : (bs.getD (idx / 8) 0).testBit (idx % 8) <;> simp [h]

theorem testBit_setBit_self (bs : List Nat) (idx : Nat) (h : idx / 8 < bs.length) :
    testBit (setBit bs idx) idx = true := by
  rw [testBit_eq, setBit, getD_set_self _ _ _ h]
  simp [Nat.testBit_lor, Nat.one_shiftLeft, Nat.testBit_two_pow_self]

theorem testBit_setBit_mono (bs : List Nat) (i j : Nat) (h : testBit bs j = true) :
    testBit (setBit bs i) j = true := by
  rw [testBit_eq] at h ⊢
  unfold setBit
  by_cases hij : i / 8 = j / 8
  · by_cases hlen : j / 8 < bs.length
    · rw [hij, getD_set_self _ _ _ hlen]
      rw [Nat.testBit_lor, h]
      simp
    · rw [getD_out _ _ (by omega)] at h
      simp at h
  · rw [getD_set_ne _ _ _ _ hij]
    exact h

theorem length_addStep (key bs : List Nat) (i : Nat) :
    (addStep key bs i).length = bs.length :=
  length_setBit _ _

theorem length_addFold (key : List Nat) (l : List Nat) (bs : List Nat) :
    (l.foldl (addStep key) bs).length = bs.length := by
  induction l generalizing bs with
  | nil => rfl
  | cons a rest ih => rw [List.foldl_cons, ih, length_addStep]

theorem testBit_addFold_mono (key : List Nat) (l : List Nat) (bs : List Nat) (j : Nat)
    (h : testBit bs j = true) : testBit (l.foldl (addStep key) bs) j = true := by
  induction l generalizing bs with
  | nil => exact h
  | cons a rest ih => exact ih _ (testBit_setBit_mono _ _ _ h)

theorem testBit_addFold_self (key : List Nat) (l : List Nat) (bs : List Nat)
    (hbs : 0 < bs.length) (i : Nat) (hi : i ∈ l) :
    testBit (l.foldl (addStep key) bs) (BloomFilter.hash key i % (bs.length * 8)) = true := by
  induction l generalizing bs with
  | nil => cases hi
  | cons a rest ih =>
    rw [List.foldl_cons]
    rcases List.mem_cons.mp hi with rfl | hmem
    · apply testBit_addFold_mono
      apply testBit_setBit_self
      have hm : BloomFilter.hash key i % (bs.length * 8) < bs.length * 8 :=
        Nat.mod_lt _ (by omega)
      omega
    · have h2 := ih (addStep key bs a) (by rw [length_addStep]; exact hbs) hmem
      rw [length_addStep] at h2
      exact h2

theorem add_bits_length (b : BloomFilter) (key : List Nat) :
    (b.add key).bits.length = b.bits.length :=
  length_addFold _ _ _

theorem mightContain_add_self (b : BloomFilter) (key : List Nat)
    (hbits : 0 < b.bits.length) : (b.add key).mightContain key = true := by
  unfold BloomFilter.mightContain
  rw [List.all_eq_true]
  intro i hi
  show testBit ((List.range b.k).foldl (addStep key) b.bits)
    (BloomFilter.hash key i % ((b.add key).bits.length * 8)) = true
  rw [add_bits_length]
  exact testBit_addFold_self key _ _ hbits i hi

theorem mightContain_add_mono (b : BloomFilter) (key other : List Nat)
    (h : b.mightContain key = true) : (b.add other).mightContain key = true := by
  unfold BloomFilter.mightContain at h ⊢
  rw [List.all_eq_true] at h ⊢
  intro i hi
  show testBit ((List.range b.k).foldl (addStep other) b.bits)
    (BloomFilter.hash key i % ((b.add other).bits.length * 8)) = true
  rw [add_bits_length]
  exact testBit_addFold_mono other _ _ _ (h i hi)

theorem mightContain_foldl_add (keys : List (List Nat)) (b : BloomFilter) (key : List Nat)
    (h : b.mightContain key = true) :
    (keys.foldl BloomFilter.add b).mightContain key = true := by
  induction keys generalizing b with
  | nil => exact h
  | cons a rest ih => exact ih _ (mightContain_add_mono _ _ _ h)

/- ## Claims -/

/-- C6: For every membership filter with a non-empty bit array and every
sequence of `Add` operations, `MightContain` returns `true` for every key
that was ever added to the filter — false negatives are impossible (false
positives are permitted; nothing is claimed for keys not added).  The
non-empty-bit-array hypothesis reflects that a zero-length filter would make
the Go source divide by zero; every filter the engine builds has 1024
bytes. -/
theorem bloom_no_false_negatives (b : BloomFilter) (keys : List (List Nat))
    (key : List Nat) (hmem : key ∈ keys) (hbits : 0 < b.bits.length) :
    (keys.foldl BloomFilter.add b).mightContain key = true := by
  induction keys generalizing b with
  | nil => cases hmem
  | cons a rest ih =>
    rw [List.foldl_cons]
    rcases List.mem_cons.mp hmem with rfl | h
    · exact mightContain_foldl_add rest _ _ (mightContain_add_self b key hbits)
    · exact ih (b.add a) h (by rw [add_bits_length]; exact hbits)

/-- C6 witness: adding the key "a" to a fresh 16-byte, 3-probe filter makes
`MightContain "a"` return `true`. -/
theorem bloom_no_false_negatives_witness :
    (([[97]] : List (List Nat)).foldl BloomFilter.add
      (NewBloomFilter 16 3)).mightContain [97] = true :=
  bloom_no_false_negatives (NewBloomFilter 16 3) [[97]] [97] (by decide) (by decide)

/-- C1: the claim says that after any sequence of engine operations that has
persisted "k" into an SST, `Delete("k")` records a tombstone so that
`Get("k")` returns absent.  A flush attempt streams the data file before
failing at the sidecar save, and the next startup registers that orphaned
file as an SST holding `"k" ↦ "v"` (`diskC1`).  On the reopened engine the
acknowledged `Delete("k")` is a no-op — `MemTable.Delete` removes the key
instead of storing a tombstone, and "k" is not in the fresh memory table —
so `Get("k")` falls through to the SST and returns the stale value
("v", true) instead of absent — against the engine's own design notes,
which say a tombstone is stored in the memory table. -/
theorem engine_delete_after_flush_returns_stale :
    engC1.map (fun e => e.get [107]) = some (some [118]) := by decide

/-- C2: the claim says reopening over a directory with WAL segment 0 holding
an acknowledged `Put("a","1")` replays that segment, making `Get("a")`
return ("1", true).  The source's `OpenWAL` jumps straight to a fresh
segment `max(id)+1 = 1` and `Replay` then reads only that new empty active
segment, so the reopened engine returns absent. -/
theorem reopen_loses_acknowledged_put :
    (newEngine 1048576 4 diskC2).map (fun e => e.get [97]) = some none := by decide

/-- C3: the claim says a first hit carrying an empty value (a tombstone) makes
`Get` return absent.  In the source `Engine.Get` returns any memory-table hit
as `(val, true)` without inspecting the value, so after `Put("k","")` the
lookup returns (empty, true) rather than absent. -/
theorem get_returns_empty_value_hit_as_present :
    engC3.map (fun e => e.get [107]) = some (some []) := by decide

/-- C4: the claim says `Size()` equals Σ(len(key) + len(value)) over the
present entries.  In the source `Put` of an existing key subtracts only the
old value length yet adds `len(k) + len(value)` again, double-counting the
key (accounting 3 vs actual 2 after put "a" "x"; put "a" "y"), and `Delete`
removes the entry while leaving the key-length contribution behind
(accounting 1 vs actual 0). -/
theorem memtable_size_accounting_mismatch :
    (mtOverwrite.size = 3 ∧ memSum mtOverwrite = 2) ∧
    (mtDeleted.size = 1 ∧ memSum mtDeleted = 0) := by decide

/-- C5: the claim says `Save` followed by `LoadBloomFilter` succeeds and
restores the bit array and probe count.  Both fields of the Go struct
(`bits`, `k`) are unexported, and `encoding/gob` fails to encode a struct
with no exported fields, so `Save` returns an error for every filter —
including the engine's own `NewBloomFilter(1024, 3)` — and nothing usable is
ever persisted or restored. -/
theorem bloom_save_fails_no_exported_fields :
    (NewBloomFilter 1024 3).save =
      .error "gob: type BloomFilter has no exported fields" := rfl

/-- C7: the claim says compaction triggers when the SST count reaches the
configured maximum for every configured value.  `maybeCompact` compares
against the compile-time constant `MaxSSTables = 4` and never reads the
configured `maxSSTables` variable: with the trigger configured to 2 and 2
SSTs present, no compaction happens. -/
theorem maybeCompact_ignores_configured_max :
    engC7.maxSSTables = 2 ∧ engC7.sstables.length = 2 ∧
    engC7.maybeCompact = (engC7, false) := by
  refine ⟨rfl, rfl, ?_⟩
  unfold Engine.maybeCompact
  rw [if_pos (by decide)]

theorem bloomFilter_save_always_fails (b : BloomFilter) :
    b.save = .error "gob: type BloomFilter has no exported fields" := rfl

theorem writeSSTable_always_fails (path : String)
    (data : List (List Nat × List Nat)) : writeSSTable path data = none := rfl

theorem flushMemTable_always_fails (e : Engine)
    (h : e.memtable.snapshot.isEmpty = false) : e.flushMemTable = (e, true) := by
  unfold Engine.flushMemTable
  rw [h]
  simp [writeSSTable_always_fails]

/-- C8: the claim says that after the flush pipeline completes (WAL rotation
followed by truncation), no segment file with an id strictly below the new
active segment's id remains on disk.  In the source the pipeline never gets
that far: `WriteSSTable` fails at the sidecar-filter save before the SST is
registered, so `flushMemTable` returns that error with rotation and
truncation unreached.  On the reopened-directory trace the put-triggered
flush leaves: an error returned (`true`), the active segment still 1, both
segment files 0 and 1 on disk — id 0 strictly below the active id — no SST
registered, and the memory table still holding the entry. -/
theorem flush_pipeline_aborts_before_rotation :
    engC8.map (fun p =>
      (p.2, p.1.wal.segment, p.1.wal.files.map Prod.fst, p.1.sstables.length,
       p.1.memtable.get [107])) =
      some (true, 1, [0, 1], 0, some [118]) := by decide

/-- C9 counterexample: the claim says `Put` with an empty key returns an
invalid-key error and leaves the WAL and memory table unchanged.  The
source's `Engine.Put` has no key validation: the call succeeds (no error),
the empty-key record is framed into the active WAL segment, and the memory
table maps the empty key to the value. -/
theorem engine_accepts_empty_key :
    engC9.map (fun p => (p.2, p.1.memtable.get [], p.1.wal.activeBytes)) =
      some (false, some [118], walRecordBytes 1 [] [118]) := by decide

/-- C9 (amended): engine `Put` and `Delete` perform no empty-key validation —
below the flush threshold they return success after appending the record to
the WAL and applying it to the memory table, exactly as for any other key
(empty keys are turned away only by the HTTP front-end, before the engine is
reached). -/
theorem empty_key_applies_to_wal_and_memtable (e : Engine) (value : List Nat)
    (hp : ¬ e.memTableFlushThreshold ≤ (e.memtable.put [] value).size)
    (hd : ¬ e.memTableFlushThreshold ≤ (e.memtable.delete []).size) :
    e.put [] value =
      ({ e with wal := e.wal.appendPut [] value,
                memtable := e.memtable.put [] value }, false) ∧
    e.delete [] =
      ({ e with wal := e.wal.appendDelete [],
                memtable := e.memtable.delete [] }, false) := by
  constructor
  · unfold Engine.put
    rw [if_neg hp]
  · unfold Engine.delete
    rw [if_neg hd]

/-- C9 witness: on a fresh engine with a 1 MiB threshold, `Put("", "v")` and
`Delete("")` succeed and mutate the WAL and memory table. -/
theorem empty_key_applies_to_wal_and_memtable_witness :
    engW9.put [] [118] =
      ({ engW9 with wal := engW9.wal.appendPut [] [118],
                    memtable := engW9.memtable.put [] [118] }, false) ∧
    engW9.delete [] =
      ({ engW9 with wal := engW9.wal.appendDelete [],
                    memtable := engW9.memtable.delete [] }, false) :=
  empty_key_applies_to_wal_and_memtable engW9 [118] (by decide) (by decide)

theorem sstSearch_append (xs ys : List SSTable) (key : List Nat) :
    sstSearch (xs ++ ys) key =
      match sstSearch xs key with
      | some v => some v
      | none => sstSearch ys key := by
  induction xs with
  | nil => simp [sstSearch]
  | cons t rest ih =>
    by_cases hb : bloomRejects t.bloom key
    · simp [sstSearch, hb, ih]
    · cases hg : sstGet t.file key <;> simp [sstSearch, hb, hg, ih]

theorem sstSearch_single_err (t : SSTable) (key : List Nat)
    (herr : sstGet t.file key = SSTRes.ioErr) : sstSearch [t] key = none := by
  by_cases hb : bloomRejects t.bloom key <;> simp [sstSearch, hb, herr]

/-- C10: `Engine.Get` returns `([]byte, bool)` — no error can be returned or
propagated — and when the point lookup on some SST fails with an I/O or
decoding error, the discarded error makes `Get` behave exactly as if that
SST were not in the engine's SST sequence at all: the scan continues with
the older tables, possibly returning an older generation's value or
absent. -/
theorem engine_get_ignores_sst_errors (e : Engine) (pre post : List SSTable)
    (t : SSTable) (key : List Nat)
    (hsplit : e.sstables = pre ++ t :: post)
    (herr : sstGet t.file key = SSTRes.ioErr) :
    e.get key = Engine.get { e with sstables := pre ++ post } key := by
  unfold Engine.get
  cases hm : e.memtable.get key with
  | some v => rfl
  | none =>
    show sstSearch e.sstables.reverse key = sstSearch (pre ++ post).reverse key
    rw [hsplit]
    have h1 : (pre ++ t :: post).reverse = post.reverse ++ ([t] ++ pre.reverse) := by simp
    have h2 : (pre ++ post).reverse = post.reverse ++ pre.reverse := by simp
    rw [h1, h2, sstSearch_append, sstSearch_append, sstSearch_single_err t key herr,
      sstSearch_append]

/-- C10 witness: with a corrupt newest SST (lookup errors) above a
well-formed older SST holding "k", `Get("k")` behaves exactly as if the
corrupt table were absent. -/
theorem engine_get_ignores_sst_errors_witness :
    engW10.get [107] = Engine.get { engW10 with sstables := [sstOldW] ++ [] } [107] :=
  engine_get_ignores_sst_errors engW10 [sstOldW] [] sstBadW [107] rfl (by decide)

end Logbase
